import Mathlib

/-!
Shallow embedding of the aggregation and decoding core of
src/src/network/networkctl.c, together with theorems settling the
specification claims about it.

Conventions of the embedding:
  - C functions returning a negative errno on failure and a value through an
    out parameter are modelled as `Except Int v`, the error carrying the
    negative errno value.
  - The netlink message accessors (sd_netlink_message_get_type and friends)
    are modelled as record fields of type `Except Int v`: each field holds
    the result the accessor would return for that message.
  - External collaborators that are not part of this source file
    (sd_hwdb_get, sd_lldp_neighbor_from_raw, sd_network_*, local_addresses,
    local_gateways, in_addr_to_string) are modelled as function parameters
    or environment fields, exactly at the call boundary the source uses.
  - Machine integers are Nat or Int; byte buffers are `List Nat`.
-/

/-- RTM_NEWLINK message type constant (rtnetlink). -/
def RTM_NEWLINK : Nat := 16

/-- RTM_NEWNEIGH message type constant (rtnetlink). -/
def RTM_NEWNEIGH : Nat := 28

/-- AF_INET address family constant. -/
def AF_INET : Int := 2

/-- AF_INET6 address family constant. -/
def AF_INET6 : Int := 10

/-- errno value EINVAL. -/
def EINVAL : Int := 22

/-- errno value ENOENT. -/
def ENOENT : Int := 2

/-- errno value ENODATA. -/
def ENODATA : Int := 61

/-!  ## Capability rendering (lldp_capabilities_to_string)  -/

/-- The static `characters` table of lldp_capabilities_to_string. -/
def characters : List Char := ['o', 'p', 'b', 'w', 'r', 't', 'd', 'a', 'c', 's', 'm']

/-- Embedding of `lldp_capabilities_to_string`: for each position i in the
fixed table, emit the table character when bit i of x is set, else a dot.
The source iterates i over the table positions testing `x & (1U << i)`. -/
def lldp_capabilities_to_string (x : Nat) : String :=
  String.mk ((List.range characters.length).map fun i =>
    if x &&& (1 <<< i) ≠ 0 then characters.getD i '.' else '.')

/-!  ## Link Table Decoder (decode_and_sort_links)  -/

instance {ε α : Type} [DecidableEq ε] [DecidableEq α] : DecidableEq (Except ε α) := fun
  | .ok a, .ok b =>
    if h : a = b then .isTrue (by rw [h]) else .isFalse (by simp [h])
  | .ok _, .error _ => .isFalse (by simp)
  | .error _, .ok _ => .isFalse (by simp)
  | .error e, .error f =>
    if h : e = f then .isTrue (by rw [h]) else .isFalse (by simp [h])

/-- One sd_netlink_message of a link dump, modelled through the results of
the four accessors decode_and_sort_links applies to it. -/
structure NetlinkMessage where
  msg_type : Except Int Nat
  ifindex : Except Int Int
  ifname : Except Int String
  iftype : Except Int Nat
deriving DecidableEq

/-- The LinkInfo record of the source. -/
structure LinkInfo where
  name : String
  ifindex : Int
  iftype : Nat
deriving DecidableEq

/-- The qsort comparator `link_info_compare`: subtracts interface indices. -/
def link_info_compare (x y : LinkInfo) : Int :=
  x.ifindex - y.ifindex

/-- The decoding loop of decode_and_sort_links: walk the message chain,
skip messages whose type is not RTM_NEWLINK, extract index, name and
interface type from the kept ones, failing the whole decode on the first
accessor error. -/
def decode_links : List NetlinkMessage → Except Int (List LinkInfo)
  | [] => .ok []
  | m :: rest =>
    match m.msg_type with
    | .error e => .error e
    | .ok t =>
      if t ≠ RTM_NEWLINK then
        decode_links rest
      else
        match m.ifindex with
        | .error e => .error e
        | .ok idx =>
          match m.ifname with
          | .error e => .error e
          | .ok nm =>
            match m.iftype with
            | .error e => .error e
            | .ok ty =>
              (decode_links rest).map (fun ls => ⟨nm, idx, ty⟩ :: ls)

/-- Embedding of `decode_and_sort_links`: decode the message chain, then
sort the collected records with the `link_info_compare` comparator
(qsort_safe in the source; any comparator-correct sort has the same
sortedness and multiset contract). -/
def decode_and_sort_links (msgs : List NetlinkMessage) : Except Int (List LinkInfo) :=
  (decode_links msgs).map
    (List.insertionSort (fun a b => link_info_compare a b ≤ 0))

/-- The record a single message contributes: one LinkInfo when the message
is a fully readable RTM_NEWLINK message, nothing otherwise. -/
def extract_link (m : NetlinkMessage) : Option LinkInfo :=
  match m.msg_type with
  | .error _ => none
  | .ok t =>
    if t = RTM_NEWLINK then
      match m.ifindex, m.ifname, m.iftype with
      | .ok idx, .ok nm, .ok ty => some ⟨nm, idx, ty⟩
      | _, _, _ => none
    else none

/-!  ## Vendor Resolver (ieee_oui)  -/

/-- A hardware database handle: sd_hwdb_get is modelled as a total function
from (modalias key, property name) to an optional property value; `none`
is the database miss that sd_hwdb_get reports with a negative return. -/
def Hwdb : Type := String → String → Option String

/-- One uppercase hexadecimal digit, as printf %X renders it. -/
def hexDigit (n : Nat) : Char :=
  if n < 10 then Char.ofNat (48 + n) else Char.ofNat (55 + n)

/-- printf %02X of one byte. -/
def hexByte (b : Nat) : String :=
  String.mk [hexDigit (b / 16 % 16), hexDigit (b % 16)]

/-- The modalias key ieee_oui builds with
xsprintf(modalias, "OUI:" ETHER_ADDR_FORMAT_STR, ETHER_ADDR_FORMAT_VAL(*mac)):
"OUI:" followed by the %02X rendering of all six bytes of the address.
The six-byte width is fixed inside this source file by the buffer
declaration char modalias[strlen("OUI:XXYYXXYYXXYY") + 1] (twelve hex
digits), which the xsprintf result must fit exactly. -/
def oui_modalias (mac : List Nat) : String :=
  String.append ("OUI:") ((mac.map hexByte).foldr String.append (""))

/-- Embedding of `ieee_oui`. A null database handle and a null address are
modelled as `none`. The source rejects those and any address whose top
three bytes are all zero with -EINVAL, then queries the database under the
modalias key for the "ID_OUI_FROM_DATABASE" property; a miss is reported
with a negative sd_hwdb_get return, modelled as -ENOENT. -/
def ieee_oui (hwdb : Option Hwdb) (mac : Option (List Nat)) : Except Int String :=
  match hwdb with
  | none => .error (-EINVAL)
  | some db =>
    match mac with
    | none => .error (-EINVAL)
    | some m =>
      if m.take 3 = [0, 0, 0] then .error (-EINVAL)
      else
        match db (oui_modalias m) ("ID_OUI_FROM_DATABASE") with
        | none => .error (-ENOENT)
        | some d => .ok d

/-- The sixteen uppercase hexadecimal digit characters, written as the
amended claim words them: an independent digit table against which the
printf-style arithmetic rendering of the embedding is compared. -/
def spec_hex_chars : List Char :=
  ['0', '1', '2', '3', '4', '5', '6', '7', '8', '9',
   'A', 'B', 'C', 'D', 'E', 'F']

/-- The two uppercase hexadecimal digits of one byte, by table lookup. -/
def spec_hex_byte (b : Nat) : String :=
  String.mk [spec_hex_chars.getD (b / 16 % 16) '0', spec_hex_chars.getD (b % 16) '0']

/-- The lookup key as the amended claim words it: "OUI:" followed by the
canonical hexadecimal rendering of every byte of the address in order. -/
def spec_oui_key (mac : List Nat) : String :=
  String.append ("OUI:") (String.join (mac.map spec_hex_byte))

/-!  ## Gateway Resolver (get_gateway_description)  -/

/-- The in_addr_union of the source: storage for both a 4-byte IPv4 and a
16-byte IPv6 address; only the member selected by the address family is
meaningful. -/
structure InAddrUnion where
  in4 : List Nat
  in6 : List Nat
deriving DecidableEq

/-- The zero-initialised union (`union in_addr_union gw = {}`). -/
def in_addr_zero : InAddrUnion :=
  { in4 := [0, 0, 0, 0], in6 := List.replicate 16 0 }

/-- in_addr_equal: family-correct binary comparison, 4 bytes for AF_INET
and 16 bytes for AF_INET6. (For any other family the C helper returns a
negative value, whose negation is falsy, so the caller does not skip;
that branch is unreachable here because the family was filtered first.) -/
def in_addr_equal (family : Int) (a b : InAddrUnion) : Bool :=
  if family = AF_INET then a.in4 == b.in4
  else if family = AF_INET6 then a.in6 == b.in6
  else true

/-- One sd_netlink_message of a neighbor dump, modelled through the results
of the accessors the scanning loop of get_gateway_description applies. -/
structure NeighMessage where
  errno : Int
  msg_type : Except Int Nat
  family : Except Int Int
  ifindex : Except Int Int
  nda_dst_in : Except Int (List Nat)
  nda_dst_in6 : Except Int (List Nat)
  nda_lladdr : Except Int (List Nat)
deriving DecidableEq

/-- The body of the scanning loop of get_gateway_description for one
neighbor entry: `some d` when the entry passes every check and the vendor
lookup succeeds with d, `none` when any check makes the loop continue.
The checks, in source order: message errno, message type RTM_NEWNEIGH,
address family equal to the requested one, interface index equal to the
requested one when one was requested, NDA_DST readable for the family
(the switch statement), destination equal to the gateway address,
NDA_LLADDR readable, and ieee_oui succeeding on it. -/
def neigh_result (hwdb : Option Hwdb) (ifindex family : Int)
    (gateway : InAddrUnion) (m : NeighMessage) : Option String :=
  if m.errno < 0 then none
  else
    match m.msg_type with
    | .error _ => none
    | .ok t =>
      if t ≠ RTM_NEWNEIGH then none
      else
        match m.family with
        | .error _ => none
        | .ok fam =>
          if fam ≠ family then none
          else
            match m.ifindex with
            | .error _ => none
            | .ok ifi =>
              if ifindex > 0 ∧ ifi ≠ ifindex then none
              else
                let gw? : Option InAddrUnion :=
                  if fam = AF_INET then
                    match m.nda_dst_in with
                    | .ok a => some { in_addr_zero with in4 := a }
                    | .error _ => none
                  else if fam = AF_INET6 then
                    match m.nda_dst_in6 with
                    | .ok a => some { in_addr_zero with in6 := a }
                    | .error _ => none
                  else none
                match gw? with
                | none => none
                | some gw =>
                  if ¬ in_addr_equal fam gw gateway then none
                  else
                    match m.nda_lladdr with
                    | .error _ => none
                    | .ok mac =>
                      match ieee_oui hwdb (some mac) with
                      | .error _ => none
                      | .ok d => some d

/-- The scanning loop of get_gateway_description: first entry whose body
returns a description wins; exhaustion yields -ENODATA. -/
def neigh_scan (hwdb : Option Hwdb) (ifindex family : Int)
    (gateway : InAddrUnion) : List NeighMessage → Except Int String
  | [] => .error (-ENODATA)
  | m :: rest =>
    match neigh_result hwdb ifindex family gateway m with
    | some d => .ok d
    | none => neigh_scan hwdb ifindex family gateway rest

/-- Embedding of `get_gateway_description`. The construction and dispatch
of the RTM_GETNEIGH dump request is modelled by the `reply` parameter:
an error there is the transport failure the source returns as-is; a
successful dump yields the message chain the loop scans. -/
def get_gateway_description (hwdb : Option Hwdb) (ifindex family : Int)
    (gateway : InAddrUnion) (reply : Except Int (List NeighMessage)) :
    Except Int String :=
  match reply with
  | .error e => .error e
  | .ok ms => neigh_scan hwdb ifindex family gateway ms

/-- The filter-predicate list exactly as claim C2 words it: message type is
RTM_NEWNEIGH, address family matches, interface index matches when a
specific interface was requested, destination address equals the target
under family-correct binary comparison, and a resolved link-layer address
is present. (Note: success of the vendor lookup is not in this list.) -/
def claim_neigh_match (ifindex family : Int) (gateway : InAddrUnion)
    (m : NeighMessage) : Bool :=
  (match m.msg_type with | .ok t => t == RTM_NEWNEIGH | .error _ => false)
  && (match m.family with | .ok f => f == family | .error _ => false)
  && (ifindex ≤ 0 || (match m.ifindex with | .ok i => i == ifindex | .error _ => false))
  && (if family = AF_INET then
        match m.nda_dst_in with | .ok a => a == gateway.in4 | .error _ => false
      else if family = AF_INET6 then
        match m.nda_dst_in6 with | .ok a => a == gateway.in6 | .error _ => false
      else false)
  && (match m.nda_lladdr with | .ok _ => true | .error _ => false)

/-!  ## Discovery Log Decoder (the reading loop of link_lldp_status)  -/

/-- One decoded LLDP neighbor, modelled through the results of the
sd_lldp_neighbor accessors the source applies to it. -/
structure LldpNeighbor where
  chassis_id : Option String
  port_id : Option String
  system_name : Option String
  port_description : Option String
  enabled_capabilities : Option Nat
deriving DecidableEq

/-- le64toh of an 8-byte little-endian buffer: byte i carries weight
256 ^ i. -/
def le64 : List Nat → Nat
  | [] => 0
  | b :: rest => b + 256 * le64 rest

/-- The per-file reading loop of link_lldp_status over the remaining bytes
of the log file: read an 8-byte length, stop cleanly at end of stream or
on a short length read, read that many payload bytes, stop on a short
payload, hand the payload to sd_lldp_neighbor_from_raw (the `parse`
parameter), stop when it fails, otherwise keep the record and continue.
Every stop keeps the records decoded so far and raises nothing. -/
def lldp_decode (parse : List Nat → Option LldpNeighbor) (bs : List Nat) :
    List LldpNeighbor :=
  if h : bs.length < 8 then
    []
  else
    let len := le64 (bs.take 8)
    let rest := bs.drop 8
    if h2 : rest.length < len then
      []
    else
      match parse (rest.take len) with
      | none => []
      | some n => n :: lldp_decode parse (rest.drop len)
termination_by bs.length
decreasing_by
  simp only [List.length_drop]
  omega

/-- The 8-byte little-endian encoding of a length, least significant byte
first, as the log writer stores it. -/
def le64_bytes (n : Nat) : List Nat :=
  [n % 256, n / 256 % 256, n / 65536 % 256, n / 16777216 % 256,
   n / 4294967296 % 256, n / 1099511627776 % 256,
   n / 281474976710656 % 256, n / 72057594037927936 % 256]

/-- One framed record of the discovery log: the 8-byte little-endian
length followed by exactly that many payload bytes. -/
def encodeFrame (payload : List Nat) : List Nat :=
  le64_bytes payload.length ++ payload

/-!  ## link_lldp_status  -/

/-- One printed row of the lldp table. -/
structure LldpRow where
  link : String
  chassis_id : Option String
  port_id : Option String
  system_name : Option String
  port_description : Option String
  capabilities : Option String
deriving DecidableEq

/-- The row link_lldp_status prints for one decoded neighbor of one link:
the capabilities column is rendered with lldp_capabilities_to_string when
sd_lldp_neighbor_get_enabled_capabilities succeeded. -/
def neighbor_row (link : String) (n : LldpNeighbor) : LldpRow :=
  { link := link,
    chassis_id := n.chassis_id,
    port_id := n.port_id,
    system_name := n.system_name,
    port_description := n.port_description,
    capabilities := n.enabled_capabilities.map lldp_capabilities_to_string }

/-- Environment of link_lldp_status: the netlink connection, the link
dump, the per-interface log files (`none` when the file is absent or
cannot be opened, both of which the source skips), the external LLDP frame
decoder, and the legend flag. -/
structure LldpEnv where
  netlink_open : Except Int Unit
  link_dump : Except Int (List NetlinkMessage)
  lldp_file : Int → Option (List Nat)
  parse : List Nat → Option LldpNeighbor
  legend : Bool

/-- What link_lldp_status prints: the decoded rows and, when the legend is
enabled, the "Total entries displayed" count. -/
structure LldpOutput where
  rows : List LldpRow
  total : Option Int
deriving DecidableEq

/-- Embedding of `link_lldp_status`: open netlink, dump and decode the
link table, then for each link in sorted order read and decode its log
file, collecting one row per decoded neighbor. The loop
`for (i = j = 0; i < c; i++)` carries the counter j, initialised to zero,
through every iteration; the legend prints it at the end. -/
def link_lldp_status (env : LldpEnv) : Except Int LldpOutput :=
  match env.netlink_open with
  | .error e => .error e
  | .ok _ =>
    match env.link_dump with
    | .error e => .error e
    | .ok reply =>
      match decode_and_sort_links reply with
      | .error e => .error e
      | .ok links =>
        let st := links.foldl
          (fun (acc : List LldpRow × Int) l =>
            match env.lldp_file l.ifindex with
            | none => acc
            | some bs =>
              (acc.1 ++ (lldp_decode env.parse bs).map (neighbor_row l.name),
               acc.2))
          ([], 0)
        .ok { rows := st.1, total := if env.legend then some st.2 else none }

/-!  ## Status Aggregator (link_status, link_status_one, system_status)  -/

/-- One struct local_address produced by local_addresses or
local_gateways. -/
structure LocalAddress where
  family : Int
  ifindex : Int
  address : InAddrUnion

/-- The netlink reply to the single-link RTM_GETLINK query of
link_status_one, modelled through the accessor results the source reads
from it. The mtu field is the value left in the u32 after the
(void)-ignored IFLA_MTU read. -/
structure LinkMsg where
  ifindex : Except Int Int
  ifname : Except Int String
  iftype : Except Int Nat
  mac : Except Int (List Nat)
  mtu : Nat

/-- Environment of the status verb: every external query link_status and
its helpers issue, modelled at the call boundary. -/
structure StatusEnv where
  netlink_open : Except Int Unit
  hwdb_open : Except Int Hwdb
  query_link : String → Except Int LinkMsg
  link_dump : Except Int (List NetlinkMessage)
  local_addresses : Int → Except Int (List LocalAddress)
  local_gateways : Int → Except Int (List LocalAddress)
  neigh_dump : Int → Int → Except Int (List NeighMessage)
  addr_to_string : Int → InAddrUnion → Except Int String
  op_state : Int → Option String
  setup_state : Int → Option String
  dns : Int → List String
  search_domains : Int → List String
  route_domains : Int → List String
  ntp : Int → List String
  carrier_bound_to : Int → List String
  carrier_bound_by : Int → List String
  timezone : Int → Option String
  sys_op_state : Option String
  sys_dns : List String
  sys_search_domains : List String
  sys_route_domains : List String
  sys_ntp : List String

/-- The row loop shared by dump_addresses and dump_gateways: process the
entries in order, stopping at the first entry whose formatting fails; the
rows printed before the failure stay printed, and the error is recorded
separately (the callers ignore it). -/
def dump_rows {ρ : Type} (f : LocalAddress → Except Int ρ) :
    List LocalAddress → List ρ × Option Int
  | [] => ([], none)
  | a :: rest =>
    match f a with
    | .error e => ([], some e)
    | .ok row =>
      let t := dump_rows f rest
      (row :: t.1, t.2)

/-- Embedding of `dump_addresses`: list the local addresses of the scope
and render each one. -/
def dump_addresses (env : StatusEnv) (ifindex : Int) :
    List String × Option Int :=
  match env.local_addresses ifindex with
  | .error n => ([], some n)
  | .ok list =>
    dump_rows (fun a => env.addr_to_string a.family a.address) list

/-- Embedding of `dump_gateways`: list the local gateways of the scope and
render each one together with its optional vendor description; a failing
get_gateway_description is logged at debug level and leaves the
description absent. -/
def dump_gateways (env : StatusEnv) (hwdb : Option Hwdb) (ifindex : Int) :
    List (String × Option String) × Option Int :=
  match env.local_gateways ifindex with
  | .error n => ([], some n)
  | .ok list =>
    dump_rows
      (fun a =>
        match env.addr_to_string a.family a.address with
        | .error e => .error e
        | .ok gw =>
          .ok (gw, (get_gateway_description hwdb a.ifindex a.family a.address
                      (env.neigh_dump a.ifindex a.family)).toOption))
      list

/-- The report link_status_one assembles and prints for one interface.
(The purely presentational pieces of the source — colors, the textual
interface-type rendering of link_get_type_string, and the udev device
metadata lines — are not part of the claims and are left out.) -/
structure LinkReport where
  ifindex : Int
  name : String
  iftype : Nat
  operational_state : Option String
  setup_state : Option String
  hwaddr : Option (List Nat)
  hwdesc : Option String
  mtu : Option Nat
  addresses : List String
  gateways : List (String × Option String)
  dns : List String
  search_domains : List String
  route_domains : List String
  ntp : List String
  carrier_bound_to : List String
  carrier_bound_by : List String
  timezone : Option String

/-- Embedding of `link_status_one`: query the link by name or numeric
index, fail on a query or required-field error, then assemble the report;
the hardware address is dropped when absent or all-zero, its vendor
description when ieee_oui fails, and every state-store field is
best-effort. -/
def link_status_one (env : StatusEnv) (hwdb : Option Hwdb) (name : String) :
    Except Int LinkReport :=
  match env.query_link name with
  | .error e => .error e
  | .ok msg =>
    match msg.ifindex with
    | .error e => .error e
    | .ok ifindex =>
      match msg.ifname with
      | .error e => .error e
      | .ok nm =>
        match msg.iftype with
        | .error e => .error e
        | .ok ty =>
          let hwaddr : Option (List Nat) :=
            match msg.mac with
            | .ok m => if m.all (· = 0) then none else some m
            | .error _ => none
          let hwdesc : Option String :=
            match hwaddr with
            | some m => (ieee_oui hwdb (some m)).toOption
            | none => none
          .ok
            { ifindex := ifindex,
              name := nm,
              iftype := ty,
              operational_state := env.op_state ifindex,
              setup_state := env.setup_state ifindex,
              hwaddr := hwaddr,
              hwdesc := hwdesc,
              mtu := if msg.mtu > 0 then some msg.mtu else none,
              addresses := (dump_addresses env ifindex).1,
              gateways := (dump_gateways env hwdb ifindex).1,
              dns := env.dns ifindex,
              search_domains := env.search_domains ifindex,
              route_domains := env.route_domains ifindex,
              ntp := env.ntp ifindex,
              carrier_bound_to := env.carrier_bound_to ifindex,
              carrier_bound_by := env.carrier_bound_by ifindex,
              timezone := env.timezone ifindex }

/-- The system-wide report of system_status. -/
structure SystemReport where
  operational_state : Option String
  addresses : List String
  gateways : List (String × Option String)
  dns : List String
  search_domains : List String
  route_domains : List String
  ntp : List String

/-- Embedding of `system_status`: system-wide state only, with the
address and gateway dumps unfiltered (scope 0); the dump return values
are ignored by the source, so this always succeeds. -/
def system_status (env : StatusEnv) (hwdb : Option Hwdb) : SystemReport :=
  { operational_state := env.sys_op_state,
    addresses := (dump_addresses env 0).1,
    gateways := (dump_gateways env hwdb 0).1,
    dns := env.sys_dns,
    search_domains := env.sys_search_domains,
    route_domains := env.sys_route_domains,
    ntp := env.sys_ntp }

/-- What the status verb prints: either the system-wide report or the
per-link reports in order (a failed link_status_one contributes its
error; the loop ignores it and continues). -/
inductive StatusOutput where
  | system : SystemReport → StatusOutput
  | links : List (Except Int LinkReport) → StatusOutput

/-- Embedding of `link_status`: open netlink (fatal on failure), open the
hardware database (a failure is logged at debug level and leaves the
handle null), then dispatch on the argument mode exactly as the source
does: no names and no --all gives the system-wide report; --all
enumerates and decodes the link table (fatal on failure) and reports
every link; otherwise each named link is reported in turn. -/
def link_status (names : List String) (all : Bool) (env : StatusEnv) :
    Except Int StatusOutput :=
  match env.netlink_open with
  | .error e => .error e
  | .ok _ =>
    let hwdb : Option Hwdb :=
      match env.hwdb_open with
      | .ok h => some h
      | .error _ => none
    if names = [] ∧ ¬ all then
      .ok (.system (system_status env hwdb))
    else if all then
      match env.link_dump with
      | .error e => .error e
      | .ok reply =>
        match decode_and_sort_links reply with
        | .error e => .error e
        | .ok links =>
          .ok (.links (links.map (fun l => link_status_one env hwdb l.name)))
    else
      .ok (.links (names.map (fun n => link_status_one env hwdb n)))

/-- The vendor descriptions present in one link report: the hardware
address annotation and the gateway annotations. -/
def report_oui_descriptions (r : LinkReport) : List String :=
  (match r.hwdesc with | some d => [d] | none => []) ++
    r.gateways.filterMap Prod.snd

/-- All vendor descriptions present anywhere in a status output. -/
def output_oui_descriptions : StatusOutput → List String
  | .system s => s.gateways.filterMap Prod.snd
  | .links rs =>
    rs.foldr
      (fun x acc =>
        (match x with
         | .ok r => report_oui_descriptions r
         | .error _ => []) ++ acc)
      []

/-!  ## Theorems  -/

theorem and_shift_ne_iff (x i : Nat) : x &&& (1 <<< i) ≠ 0 ↔ x.testBit i = true := by
  rw [Nat.one_shiftLeft, Nat.and_two_pow]
  cases h : x.testBit i
  · simp [h]
  · simp [h, (Nat.two_pow_pos i).ne.symm]

/-- Claim C4: for every 16-bit capability flag value x,
lldp_capabilities_to_string returns an 11-character string whose i-th
character is the i-th letter of the fixed alphabet o p b w r t d a c s m
when bit i of x is set and a dot otherwise. -/
theorem lldp_capabilities_to_string_spec (x : Nat) (hx : x < 65536) :
    (lldp_capabilities_to_string x).length = 11 ∧
    ∀ i, i < 11 →
      (lldp_capabilities_to_string x).data.getD i ' ' =
        (if x.testBit i
         then (['o', 'p', 'b', 'w', 'r', 't', 'd', 'a', 'c', 's', 'm'].getD i '.')
         else '.') := by
  constructor
  · simp [lldp_capabilities_to_string, String.length, characters]
  · intro i hi
    have hlen : characters.length = 11 := by decide
    simp only [lldp_capabilities_to_string, List.getD,
      List.getElem?_map, List.getElem?_range, hlen, hi, if_pos]
    rw [List.get?_map, List.get?_range hi, Option.map_some', Option.getD_some]
    rw [show (['o', 'p', 'b', 'w', 'r', 't', 'd', 'a', 'c', 's', 'm'] : List Char) = characters from rfl]
    by_cases hb : x &&& (1 <<< i) ≠ 0
    · rw [if_pos hb, if_pos ((and_shift_ne_iff x i).mp hb)]
    · rw [if_neg hb, if_neg]
      intro ht
      exact hb ((and_shift_ne_iff x i).mpr ht)

/-- Witness for claim C4 at the concrete input of the specification:
flag value 0b101 renders as "o.b........" and its character at
position 2 is the letter b. -/
theorem lldp_capabilities_to_string_witness :
    lldp_capabilities_to_string 5 = ("o.b........") ∧
    (lldp_capabilities_to_string 5).data.getD 2 ' ' = 'b' := by
  refine ⟨by decide, ?_⟩
  have h := (lldp_capabilities_to_string_spec 5 (by decide)).2 2 (by decide)
  simpa using h

/-- Claim C6: ieee_oui returns the "not applicable" result -EINVAL,
independently of the database contents, for a null database handle, a
null address, and an address whose top three bytes are all zero. -/
theorem ieee_oui_rejects (hwdb : Option Hwdb) (db : Hwdb) (mac : List Nat) :
    ieee_oui none (some mac) = .error (-EINVAL) ∧
    ieee_oui (some db) none = .error (-EINVAL) ∧
    (mac.take 3 = [0, 0, 0] → ieee_oui hwdb (some mac) = .error (-EINVAL)) := by
  refine ⟨rfl, rfl, fun h => ?_⟩
  cases hwdb with
  | none => rfl
  | some db => simp [ieee_oui, h]

/-- A database that answers every query, to exhibit that the reserved
prefix rule ignores the database contents. -/
def oui_db_always : Hwdb := fun _ _ => some ("SomeVendor")

/-- Witness for claim C6: address 00:00:00:AB:CD:EF is rejected both with
a database that would answer anything and with a null handle. -/
theorem ieee_oui_rejects_witness :
    ieee_oui (some oui_db_always) (some [0, 0, 0, 171, 205, 239]) = .error (-EINVAL) ∧
    ieee_oui none (some [0, 0, 0, 171, 205, 239]) = .error (-EINVAL) := by
  refine ⟨?_, ?_⟩
  · exact (ieee_oui_rejects (some oui_db_always) oui_db_always [0, 0, 0, 171, 205, 239]).2.2 (by decide)
  · exact (ieee_oui_rejects none oui_db_always [0, 0, 0, 171, 205, 239]).1

/-- A database answering only under the full six-byte key of address
01:02:03:AB:CD:EF. -/
def oui_db_full_key : Hwdb :=
  fun k _ => if k = ("OUI:010203ABCDEF") then some ("VendorX") else none

/-- Counterexample to claim C5: the lookup key ieee_oui uses is not formed
from the top 3 bytes of the address. Two addresses sharing the top three
bytes 01:02:03 produce different modalias keys, and against the same
database one resolves while the other misses. -/
theorem ieee_oui_key_counterexample :
    [1, 2, 3, 171, 205, 239].take 3 = [1, 2, 3, 0, 0, 0].take 3 ∧
    oui_modalias [1, 2, 3, 171, 205, 239] ≠ oui_modalias [1, 2, 3, 0, 0, 0] ∧
    ieee_oui (some oui_db_full_key) (some [1, 2, 3, 171, 205, 239]) = .ok ("VendorX") ∧
    ieee_oui (some oui_db_full_key) (some [1, 2, 3, 0, 0, 0]) = .error (-ENOENT) := by
  refine ⟨rfl, by decide, by decide, by decide⟩

theorem string_join_nil : String.join [] = ("") := rfl

theorem string_foldl_append (l : List String) (s : String) :
    l.foldl (fun r t => r ++ t) s = s ++ l.foldl (fun r t => r ++ t) ("") := by
  induction l generalizing s with
  | nil => simp [String.append_empty]
  | cons a rest ih =>
    simp only [List.foldl_cons]
    rw [ih (s ++ a), ih (("") ++ a), String.empty_append, String.append_assoc]

theorem string_join_cons (s : String) (l : List String) :
    String.join (s :: l) = s ++ String.join l := by
  simp only [String.join, List.foldl_cons]
  rw [string_foldl_append l (("") ++ s), String.empty_append]

theorem foldr_append_eq_join (l : List String) :
    l.foldr String.append ("") = String.join l := by
  induction l with
  | nil => rfl
  | cons s rest ih =>
    simp only [List.foldr_cons, ih]
    exact (string_join_cons s rest).symm

theorem hexDigit_eq_table (n : Nat) (h : n < 16) :
    hexDigit n = spec_hex_chars.getD n '0' := by
  interval_cases n <;> rfl

theorem hexByte_eq_spec_hex_byte : hexByte = spec_hex_byte := by
  funext b
  unfold hexByte spec_hex_byte
  rw [hexDigit_eq_table (b / 16 % 16) (Nat.mod_lt _ (by omega)),
      hexDigit_eq_table (b % 16) (Nat.mod_lt _ (by omega))]

theorem oui_modalias_eq_spec_key (mac : List Nat) :
    oui_modalias mac = spec_oui_key mac := by
  unfold oui_modalias spec_oui_key
  rw [hexByte_eq_spec_hex_byte, foldr_append_eq_join]

/-- Claim C5 (amended): for every non-rejected six-byte hardware address,
ieee_oui queries the lookup database for the vendor-name property
ID_OUI_FROM_DATABASE under the canonical hexadecimal key formed from all
six bytes of the address: "OUI:" followed by the two uppercase
hexadecimal digits of each of the six bytes in order. -/
theorem ieee_oui_amended (db : Hwdb) (b0 b1 b2 b3 b4 b5 : Nat)
    (h : [b0, b1, b2, b3, b4, b5].take 3 ≠ [0, 0, 0]) :
    ieee_oui (some db) (some [b0, b1, b2, b3, b4, b5]) =
      (match db (spec_oui_key [b0, b1, b2, b3, b4, b5]) ("ID_OUI_FROM_DATABASE") with
       | none => .error (-ENOENT)
       | some d => .ok d) ∧
    spec_oui_key [b0, b1, b2, b3, b4, b5] =
      String.append ("OUI:")
        (String.append (spec_hex_byte b0) (String.append (spec_hex_byte b1)
          (String.append (spec_hex_byte b2) (String.append (spec_hex_byte b3)
            (String.append (spec_hex_byte b4) (spec_hex_byte b5)))))) := by
  constructor
  · simp only [ieee_oui]
    rw [if_neg h, oui_modalias_eq_spec_key]
  · simp only [spec_oui_key, List.map_cons, List.map_nil, string_join_cons,
      string_join_nil, String.append_empty]
    rfl

/-- A database holding one vendor entry under the full six-byte key of
address AA:BB:CC:01:02:03. -/
def oui_db_acme : Hwdb :=
  fun k p =>
    if k = ("OUI:AABBCC010203") ∧ p = ("ID_OUI_FROM_DATABASE")
    then some ("Acme Corporation") else none

/-- Witness for the amended claim C5 at a concrete address and database. -/
theorem ieee_oui_amended_witness :
    ieee_oui (some oui_db_acme) (some [170, 187, 204, 1, 2, 3]) =
      .ok ("Acme Corporation") := by
  have h := (ieee_oui_amended oui_db_acme 170 187 204 1 2 3 (by decide)).1
  rw [h]
  decide

theorem decode_links_eq_filterMap :
    ∀ (msgs : List NetlinkMessage) (l : List LinkInfo),
      decode_links msgs = .ok l → l = msgs.filterMap extract_link := by
  intro msgs
  induction msgs with
  | nil =>
    intro l h
    simp [decode_links] at h
    simp [h.symm]
  | cons m rest ih =>
    intro l h
    cases hty : m.msg_type with
    | error e => simp [decode_links, hty] at h
    | ok t =>
      by_cases hnl : t = RTM_NEWLINK
      · subst hnl
        have hne : ¬ (RTM_NEWLINK ≠ RTM_NEWLINK) := fun hx => hx rfl
        simp only [decode_links, hty, if_neg hne] at h
        cases hidx : m.ifindex with
        | error e => simp [hidx] at h
        | ok idx =>
          cases hnm : m.ifname with
          | error e => simp [hidx, hnm] at h
          | ok nm =>
            cases hity : m.iftype with
            | error e => simp [hidx, hnm, hity] at h
            | ok ty =>
              simp only [hidx, hnm, hity] at h
              cases hrest : decode_links rest with
              | error e => simp [hrest, Except.map] at h
              | ok l0 =>
                simp only [hrest, Except.map, Except.ok.injEq] at h
                have hl0 := ih l0 hrest
                rw [← h]
                simp [extract_link, hty, hidx, hnm, hity, hl0]
      · simp only [decode_links, hty, if_pos hnl] at h
        have := ih l h
        simp [extract_link, hty, hnl, this]

instance : IsTotal LinkInfo (fun a b => link_info_compare a b ≤ 0) :=
  ⟨fun a b => by simp only [link_info_compare]; omega⟩

instance : IsTrans LinkInfo (fun a b => link_info_compare a b ≤ 0) :=
  ⟨fun a b c => by simp only [link_info_compare]; omega⟩

/-- Claim C1: whenever decode_and_sort_links succeeds, its output is
sorted non-decreasingly by the comparator (equivalently, by interface
index), contains exactly one record per RTM_NEWLINK message of the stream
and none for any other message type (it is a permutation of the per-
message extraction), and the comparator subtracts interface indices. -/
theorem decode_and_sort_links_spec (msgs : List NetlinkMessage)
    (links : List LinkInfo) (h : decode_and_sort_links msgs = .ok links) :
    links.Sorted (fun a b => link_info_compare a b ≤ 0) ∧
    links.Sorted (fun a b => a.ifindex ≤ b.ifindex) ∧
    links.Perm (msgs.filterMap extract_link) ∧
    (∀ x y, link_info_compare x y = x.ifindex - y.ifindex) := by
  cases hd : decode_links msgs with
  | error e => simp [decode_and_sort_links, hd, Except.map] at h
  | ok l0 =>
    have hlinks : links = List.insertionSort (fun a b => link_info_compare a b ≤ 0) l0 := by
      simp only [decode_and_sort_links, hd, Except.map, Except.ok.injEq] at h
      exact h.symm
    subst hlinks
    have hsorted := List.sorted_insertionSort (fun a b => link_info_compare a b ≤ 0) l0
    refine ⟨hsorted, ?_, ?_, fun x y => rfl⟩
    · exact hsorted.imp (fun hab => by simp only [link_info_compare] at hab; omega)
    · have hperm := List.perm_insertionSort (fun a b => link_info_compare a b ≤ 0) l0
      rw [← decode_links_eq_filterMap msgs l0 hd]
      exact hperm

/-- The example stream of the specification: new-link messages with
indices 3 ("eth2"), 1 ("lo") and 2 ("eth0"), in that order. -/
def c1_msgs : List NetlinkMessage :=
  [{ msg_type := .ok RTM_NEWLINK, ifindex := .ok 3, ifname := .ok ("eth2"), iftype := .ok 1 },
   { msg_type := .ok RTM_NEWLINK, ifindex := .ok 1, ifname := .ok ("lo"), iftype := .ok 772 },
   { msg_type := .ok RTM_NEWLINK, ifindex := .ok 2, ifname := .ok ("eth0"), iftype := .ok 1 }]

/-- The sorted decoding of c1_msgs: output order of indices is 1, 2, 3. -/
def c1_links : List LinkInfo :=
  [⟨"lo", 1, 772⟩, ⟨"eth0", 2, 1⟩, ⟨"eth2", 3, 1⟩]

/-- Witness for claim C1 on the example stream of the specification. -/
theorem decode_and_sort_links_witness :
    decode_and_sort_links c1_msgs = .ok c1_links ∧
    c1_links.Sorted (fun a b => a.ifindex ≤ b.ifindex) ∧
    c1_links.Perm (c1_msgs.filterMap extract_link) := by
  have h : decode_and_sort_links c1_msgs = .ok c1_links := by decide
  have hs := decode_and_sort_links_spec c1_msgs c1_links h
  exact ⟨h, hs.2.1, hs.2.2.1⟩

theorem decode_links_skip (xs ys : List NetlinkMessage) (m : NetlinkMessage)
    (t : Nat) (h1 : m.msg_type = .ok t) (h2 : t ≠ RTM_NEWLINK) :
    decode_links (xs ++ m :: ys) = decode_links (xs ++ ys) := by
  induction xs with
  | nil => simp [decode_links, h1, h2]
  | cons a as ih =>
    simp only [List.cons_append]
    cases hty : a.msg_type with
    | error e => simp [decode_links, hty]
    | ok t2 =>
      by_cases hnl : t2 = RTM_NEWLINK
      · subst hnl
        have hne : ¬ (RTM_NEWLINK ≠ RTM_NEWLINK) := fun hx => hx rfl
        cases hidx : a.ifindex with
        | error e => simp [decode_links, hty, if_neg hne, hidx]
        | ok idx =>
          cases hnm : a.ifname with
          | error e => simp [decode_links, hty, if_neg hne, hidx, hnm]
          | ok nm =>
            cases hity : a.iftype with
            | error e => simp [decode_links, hty, if_neg hne, hidx, hnm, hity]
            | ok ty =>
              simp only [decode_links, hty, if_neg hne, hidx, hnm, hity]
              rw [ih]
      · simp [decode_links, hty, hnl, ih]

theorem decode_links_fails (msgs : List NetlinkMessage) (m : NetlinkMessage)
    (hmem : m ∈ msgs) (ht : m.msg_type = .ok RTM_NEWLINK)
    (hf : (∃ e, m.ifindex = .error e) ∨ (∃ e, m.ifname = .error e) ∨
          (∃ e, m.iftype = .error e)) :
    ∃ e, decode_links msgs = .error e := by
  induction msgs with
  | nil => cases hmem
  | cons a rest ih =>
    rcases List.mem_cons.mp hmem with rfl | hmem2
    · have hne : ¬ (RTM_NEWLINK ≠ RTM_NEWLINK) := fun hx => hx rfl
      cases hidx : m.ifindex with
      | error e => exact ⟨e, by simp [decode_links, ht, if_neg hne, hidx]⟩
      | ok idx =>
        cases hnm : m.ifname with
        | error e => exact ⟨e, by simp [decode_links, ht, if_neg hne, hidx, hnm]⟩
        | ok nm =>
          cases hity : m.iftype with
          | error e => exact ⟨e, by simp [decode_links, ht, if_neg hne, hidx, hnm, hity]⟩
          | ok ty =>
            rcases hf with ⟨e, he⟩ | ⟨e, he⟩ | ⟨e, he⟩ <;> simp_all
    · obtain ⟨e, he⟩ := ih hmem2
      cases hty : a.msg_type with
      | error e2 => exact ⟨e2, by simp [decode_links, hty]⟩
      | ok t =>
        by_cases hnl : t = RTM_NEWLINK
        · subst hnl
          have hne : ¬ (RTM_NEWLINK ≠ RTM_NEWLINK) := fun hx => hx rfl
          cases hidx : a.ifindex with
          | error e2 => exact ⟨e2, by simp [decode_links, hty, if_neg hne, hidx]⟩
          | ok idx =>
            cases hnm : a.ifname with
            | error e2 => exact ⟨e2, by simp [decode_links, hty, if_neg hne, hidx, hnm]⟩
            | ok nm =>
              cases hity : a.iftype with
              | error e2 => exact ⟨e2, by simp [decode_links, hty, if_neg hne, hidx, hnm, hity]⟩
              | ok ty =>
                exact ⟨e, by simp [decode_links, hty, if_neg hne, hidx, hnm, hity, he, Except.map]⟩
        · exact ⟨e, by simp [decode_links, hty, hnl, he]⟩

/-- Claim C7: in the Link Table Decoder a message whose type is not
RTM_NEWLINK is skipped without effect on the result, whereas a kept
RTM_NEWLINK message with an unreadable required field (index, name or
interface type) makes the whole decode pass return an error and no
records. -/
theorem decode_and_sort_links_error_policy :
    (∀ (xs ys : List NetlinkMessage) (m : NetlinkMessage) (t : Nat),
       m.msg_type = .ok t → t ≠ RTM_NEWLINK →
       decode_and_sort_links (xs ++ m :: ys) = decode_and_sort_links (xs ++ ys)) ∧
    (∀ (msgs : List NetlinkMessage) (m : NetlinkMessage),
       m ∈ msgs → m.msg_type = .ok RTM_NEWLINK →
       ((∃ e, m.ifindex = .error e) ∨ (∃ e, m.ifname = .error e) ∨
        (∃ e, m.iftype = .error e)) →
       ∃ e, decode_and_sort_links msgs = .error e) := by
  constructor
  · intro xs ys m t h1 h2
    simp only [decode_and_sort_links, decode_links_skip xs ys m t h1 h2]
  · intro msgs m hmem ht hf
    obtain ⟨e, he⟩ := decode_links_fails msgs m hmem ht hf
    exact ⟨e, by simp [decode_and_sort_links, he, Except.map]⟩

/-- A message of a skipped type (RTM_DELLINK). -/
def c7_skip_msg : NetlinkMessage :=
  { msg_type := .ok 17, ifindex := .ok 9, ifname := .ok ("eth9"), iftype := .ok 1 }

/-- A kept new-link message whose interface index cannot be read. -/
def c7_bad_msg : NetlinkMessage :=
  { msg_type := .ok RTM_NEWLINK, ifindex := .error (-EINVAL),
    ifname := .ok ("eth1"), iftype := .ok 1 }

/-- Witness for claim C7: a wrong-type message between two good messages
changes nothing, and one unreadable kept message fails the whole pass. -/
theorem decode_and_sort_links_error_policy_witness :
    decode_and_sort_links (c1_msgs ++ c7_skip_msg :: []) =
      decode_and_sort_links (c1_msgs ++ []) ∧
    ∃ e, decode_and_sort_links (c7_bad_msg :: c1_msgs) = .error e := by
  constructor
  · exact decode_and_sort_links_error_policy.1 c1_msgs [] c7_skip_msg 17 rfl (by decide)
  · exact decode_and_sort_links_error_policy.2 (c7_bad_msg :: c1_msgs) c7_bad_msg
      (List.mem_cons_self _ _) rfl (.inl ⟨-EINVAL, rfl⟩)

theorem neigh_scan_eq_findSome (hwdb : Option Hwdb) (i f : Int)
    (g : InAddrUnion) (ms : List NeighMessage) :
    neigh_scan hwdb i f g ms =
      (match ms.findSome? (neigh_result hwdb i f g) with
       | some d => .ok d
       | none => .error (-ENODATA)) := by
  induction ms with
  | nil => rfl
  | cons m rest ih =>
    simp only [neigh_scan, List.findSome?_cons]
    cases hr : neigh_result hwdb i f g m with
    | some d => rfl
    | none => simpa using ih

/-- Claim C2 (amended): for every successfully dumped neighbor table,
get_gateway_description returns the vendor result of the first entry in
table order that passes every check of the scanning loop, the success of
the vendor lookup on its link-layer address included; entries whose
vendor lookup fails are skipped like any other non-matching entry, and
scanning stops at the first fully successful one. -/
theorem get_gateway_description_first_match (hwdb : Option Hwdb) (i f : Int)
    (g : InAddrUnion) (ms : List NeighMessage) :
    get_gateway_description hwdb i f g (.ok ms) =
      (match ms.findSome? (neigh_result hwdb i f g) with
       | some d => .ok d
       | none => .error (-ENODATA)) :=
  neigh_scan_eq_findSome hwdb i f g ms

/-- The gateway address 192.168.0.1 of the counterexample. -/
def c2_gw : InAddrUnion := { in4 := [192, 168, 0, 1], in6 := List.replicate 16 0 }

/-- First table entry: matches every predicate of claim C2 (type, family,
interface index, destination address, link-layer address present), but
its link-layer address 00:00:00:01:02:03 makes the vendor lookup fail. -/
def c2_m1 : NeighMessage :=
  { errno := 0, msg_type := .ok RTM_NEWNEIGH, family := .ok AF_INET,
    ifindex := .ok 1, nda_dst_in := .ok [192, 168, 0, 1],
    nda_dst_in6 := .error (-EINVAL), nda_lladdr := .ok [0, 0, 0, 1, 2, 3] }

/-- Second table entry: same destination, link-layer address
AA:BB:CC:01:02:03 whose vendor lookup succeeds. -/
def c2_m2 : NeighMessage :=
  { errno := 0, msg_type := .ok RTM_NEWNEIGH, family := .ok AF_INET,
    ifindex := .ok 1, nda_dst_in := .ok [192, 168, 0, 1],
    nda_dst_in6 := .error (-EINVAL), nda_lladdr := .ok [170, 187, 204, 1, 2, 3] }

/-- Counterexample to claim C2: in the table [c2_m1, c2_m2] the first
entry satisfying all the filter predicates the claim lists is c2_m1, yet
the function does not stop there and does not return a result derived
from c2_m1 (whose vendor lookup errors): it returns the vendor result of
the second entry. -/
theorem get_gateway_description_counterexample :
    List.find? (fun m => claim_neigh_match 1 AF_INET c2_gw m) [c2_m1, c2_m2] =
      some c2_m1 ∧
    ieee_oui (some oui_db_acme) (some [0, 0, 0, 1, 2, 3]) = .error (-EINVAL) ∧
    get_gateway_description (some oui_db_acme) 1 AF_INET c2_gw
        (.ok [c2_m1, c2_m2]) = .ok ("Acme Corporation") := by
  refine ⟨by decide, by decide, by decide⟩

/-- Claim C8: a transport failure of the neighbor dump propagates to the
caller unchanged, while exhausting the whole dump without any accepted
entry yields the distinct explicit no-data result -ENODATA. -/
theorem get_gateway_description_exhaustion (hwdb : Option Hwdb) (i f : Int)
    (g : InAddrUnion) :
    (∀ e : Int, get_gateway_description hwdb i f g (.error e) = .error e) ∧
    (∀ ms : List NeighMessage,
       (∀ m ∈ ms, neigh_result hwdb i f g m = none) →
       get_gateway_description hwdb i f g (.ok ms) = .error (-ENODATA)) := by
  constructor
  · intro e
    rfl
  · intro ms
    induction ms with
    | nil => intro h; rfl
    | cons m rest ih =>
      intro h
      have hm := h m (List.mem_cons_self m rest)
      have hrest := ih (fun m2 hm2 => h m2 (List.mem_cons_of_mem m hm2))
      simp only [get_gateway_description] at hrest ⊢
      simp [neigh_scan, hm, hrest]

/-- A neighbor entry without a resolved link-layer address. -/
def c8_m : NeighMessage :=
  { errno := 0, msg_type := .ok RTM_NEWNEIGH, family := .ok AF_INET,
    ifindex := .ok 2, nda_dst_in := .ok [10, 0, 0, 1],
    nda_dst_in6 := .error (-EINVAL), nda_lladdr := .error (-ENODATA) }

/-- Witness for claim C8: a transport failure -EIO propagates as-is and a
matchless table yields -ENODATA, two distinct outcomes. -/
theorem get_gateway_description_exhaustion_witness :
    get_gateway_description none 1 AF_INET c2_gw (.error (-5)) = .error (-5) ∧
    get_gateway_description none 1 AF_INET c2_gw (.ok [c8_m]) = .error (-ENODATA) ∧
    (-5 : Int) ≠ -ENODATA := by
  refine ⟨(get_gateway_description_exhaustion none 1 AF_INET c2_gw).1 (-5),
    (get_gateway_description_exhaustion none 1 AF_INET c2_gw).2 [c8_m] (by decide),
    by decide⟩

theorem le64_bytes_length (n : Nat) : (le64_bytes n).length = 8 := rfl

theorem le64_roundtrip (n : Nat) (h : n < 18446744073709551616) :
    le64 (le64_bytes n) = n := by
  simp only [le64_bytes, le64]
  omega

theorem lldp_decode_short (parse : List Nat → Option LldpNeighbor)
    (t : List Nat) (h : t.length < 8) : lldp_decode parse t = [] := by
  unfold lldp_decode
  rw [dif_pos h]

theorem lldp_decode_short_payload (parse : List Nat → Option LldpNeighbor)
    (t : List Nat) (h : ¬ t.length < 8)
    (h2 : (t.drop 8).length < le64 (t.take 8)) : lldp_decode parse t = [] := by
  unfold lldp_decode
  rw [dif_neg h, dif_pos h2]

theorem lldp_decode_bad_frame (parse : List Nat → Option LldpNeighbor)
    (t : List Nat) (h : ¬ t.length < 8)
    (h2 : ¬ (t.drop 8).length < le64 (t.take 8))
    (h3 : parse ((t.drop 8).take (le64 (t.take 8))) = none) :
    lldp_decode parse t = [] := by
  unfold lldp_decode
  rw [dif_neg h, dif_neg h2, h3]

theorem lldp_decode_frame_cons (parse : List Nat → Option LldpNeighbor)
    (p : List Nat) (n : LldpNeighbor) (rest : List Nat)
    (hp : parse p = some n) (hl : p.length < 18446744073709551616) :
    lldp_decode parse (encodeFrame p ++ rest) = n :: lldp_decode parse rest := by
  have hbytes : encodeFrame p ++ rest = le64_bytes p.length ++ (p ++ rest) := by
    simp [encodeFrame]
  rw [hbytes]
  have hlen : (le64_bytes p.length ++ (p ++ rest)).length = 8 + (p.length + rest.length) := by
    simp [le64_bytes_length]
  have hnot : ¬ (le64_bytes p.length ++ (p ++ rest)).length < 8 := by omega
  conv_lhs => rw [lldp_decode.eq_def]
  rw [dif_neg hnot]
  have htake : (le64_bytes p.length ++ (p ++ rest)).take 8 = le64_bytes p.length := by
    rw [show (8 : Nat) = (le64_bytes p.length).length from (le64_bytes_length p.length).symm]
    exact List.take_left _ _
  have hdrop : (le64_bytes p.length ++ (p ++ rest)).drop 8 = p ++ rest := by
    rw [show (8 : Nat) = (le64_bytes p.length).length from (le64_bytes_length p.length).symm]
    exact List.drop_left _ _
  rw [htake, hdrop, le64_roundtrip p.length hl]
  have hnot2 : ¬ (p ++ rest).length < p.length := by
    simp only [List.length_append]
    omega
  rw [dif_neg hnot2, List.take_left, List.drop_left, hp]

theorem lldp_decode_good_frames (parse : List Nat → Option LldpNeighbor)
    (ps : List (List Nat × LldpNeighbor)) (t : List Nat)
    (hps : ∀ pr ∈ ps, parse pr.1 = some pr.2 ∧ pr.1.length < 18446744073709551616) :
    lldp_decode parse ((ps.map (fun pr => encodeFrame pr.1)).flatten ++ t) =
      ps.map Prod.snd ++ lldp_decode parse t := by
  induction ps with
  | nil => simp
  | cons pr rest ih =>
    have hpr := hps pr (List.mem_cons_self pr rest)
    have hrest := ih (fun q hq => hps q (List.mem_cons_of_mem pr hq))
    simp only [List.map_cons, List.flatten_cons, List.append_assoc]
    rw [lldp_decode_frame_cons parse pr.1 pr.2 _ hpr.1 hpr.2, hrest]
    simp

/-- Claim C3: the Discovery Log Decoder ends successfully at end of
stream; a sequence of well-formed frames followed by a truncated length
field, a truncated payload, or an unparsable frame decodes to exactly the
records of the well-formed frames, with the bad tail stopping decoding
without discarding them and without raising any error to the caller. -/
theorem lldp_decode_spec (parse : List Nat → Option LldpNeighbor)
    (ps : List (List Nat × LldpNeighbor)) (t : List Nat)
    (hps : ∀ pr ∈ ps, parse pr.1 = some pr.2 ∧ pr.1.length < 18446744073709551616)
    (ht : t.length < 8 ∨
          (8 ≤ t.length ∧ (t.drop 8).length < le64 (t.take 8)) ∨
          (8 ≤ t.length ∧ le64 (t.take 8) ≤ (t.drop 8).length ∧
             parse ((t.drop 8).take (le64 (t.take 8))) = none)) :
    lldp_decode parse [] = [] ∧
    lldp_decode parse ((ps.map (fun pr => encodeFrame pr.1)).flatten ++ t) =
      ps.map Prod.snd := by
  have htail : lldp_decode parse t = [] := by
    rcases ht with h | ⟨h, h2⟩ | ⟨h, h2, h3⟩
    · exact lldp_decode_short parse t h
    · exact lldp_decode_short_payload parse t (by omega) h2
    · exact lldp_decode_bad_frame parse t (by omega) (by omega) h3
  refine ⟨lldp_decode_short parse [] (by simp), ?_⟩
  rw [lldp_decode_good_frames parse ps t hps, htail, List.append_nil]

/-- First example frame payload record. -/
def c3_n1 : LldpNeighbor :=
  { chassis_id := some ("ch1"), port_id := some ("port1"),
    system_name := some ("sw1"), port_description := none,
    enabled_capabilities := some 5 }

/-- Second example frame payload record. -/
def c3_n2 : LldpNeighbor :=
  { chassis_id := some ("ch2"), port_id := some ("port2"),
    system_name := none, port_description := some ("uplink"),
    enabled_capabilities := none }

/-- An example frame decoder: payload [1] is the first record, payload
[2] the second, everything else fails to parse. -/
def c3_parse : List Nat → Option LldpNeighbor :=
  fun bs => if bs = [1] then some c3_n1 else if bs = [2] then some c3_n2 else none

/-- Witness for claim C3: two complete valid records followed by a 5-byte
length fragment decode to exactly the two records. -/
theorem lldp_decode_spec_witness :
    lldp_decode c3_parse
        ((([([1], c3_n1), ([2], c3_n2)].map (fun pr => encodeFrame pr.1)).flatten)
          ++ [9, 9, 9, 9, 9]) = [c3_n1, c3_n2] := by
  have h := (lldp_decode_spec c3_parse [([1], c3_n1), ([2], c3_n2)] [9, 9, 9, 9, 9]
    (by decide) (.inl (by decide))).2
  simpa using h

theorem lldp_fold_count (env : LldpEnv) (links : List LinkInfo)
    (acc : List LldpRow × Int) :
    (links.foldl
      (fun (acc : List LldpRow × Int) l =>
        match env.lldp_file l.ifindex with
        | none => acc
        | some bs =>
          (acc.1 ++ (lldp_decode env.parse bs).map (neighbor_row l.name),
           acc.2))
      acc).2 = acc.2 := by
  induction links generalizing acc with
  | nil => rfl
  | cons l rest ih =>
    simp only [List.foldl_cons]
    cases h : env.lldp_file l.ifindex <;> simp [h, ih]

/-- Claim C10: whenever link_lldp_status succeeds with the legend enabled,
the printed total-entries count is 0, independently of how many rows were
decoded: the counter starts at zero and no loop iteration changes it. -/
theorem link_lldp_status_total_zero (env : LldpEnv) (out : LldpOutput)
    (h : link_lldp_status env = .ok out) (hleg : env.legend = true) :
    out.total = some 0 := by
  cases ho : env.netlink_open with
  | error e => simp [link_lldp_status, ho] at h
  | ok u =>
    cases hd : env.link_dump with
    | error e => simp [link_lldp_status, ho, hd] at h
    | ok reply =>
      cases hdec : decode_and_sort_links reply with
      | error e => simp [link_lldp_status, ho, hd, hdec] at h
      | ok links =>
        simp only [link_lldp_status, ho, hd, hdec, Except.ok.injEq] at h
        rw [← h, hleg]
        simp [lldp_fold_count]

/-- An environment whose interface 1 has a log of two valid frames. -/
def c10_env : LldpEnv :=
  { netlink_open := .ok (), link_dump := .ok c1_msgs,
    lldp_file := fun i => if i = 1 then some (encodeFrame [1] ++ encodeFrame [2]) else none,
    parse := c3_parse, legend := true }

/-- The output for c10_env: two decoded rows, count still zero. -/
def c10_out : LldpOutput :=
  { rows := [neighbor_row ("lo") c3_n1, neighbor_row ("lo") c3_n2],
    total := some 0 }

/-- Witness for claim C10: two rows are decoded and printed, yet the
legend count is 0. -/
theorem link_lldp_status_total_zero_witness :
    link_lldp_status c10_env = .ok c10_out ∧
    c10_out.rows.length = 2 ∧ c10_out.total = some 0 := by
  have hfile : lldp_decode c3_parse (encodeFrame [1] ++ encodeFrame [2]) =
      [c3_n1, c3_n2] := by
    have h2 : encodeFrame [1] ++ encodeFrame [2] =
        encodeFrame [1] ++ (encodeFrame [2] ++ []) := by simp
    rw [h2, lldp_decode_frame_cons c3_parse [1] c3_n1 _ (by decide) (by decide),
        lldp_decode_frame_cons c3_parse [2] c3_n2 _ (by decide) (by decide),
        lldp_decode_short c3_parse [] (by simp)]
  have hdsl : decode_and_sort_links c1_msgs = .ok c1_links := by decide
  have h : link_lldp_status c10_env = .ok c10_out := by
    simp only [link_lldp_status, c10_env, hdsl]
    simp [c1_links, hfile, c10_out]
  exact ⟨h, rfl, link_lldp_status_total_zero c10_env c10_out h rfl⟩

theorem neigh_result_none_hwdb (i f : Int) (g : InAddrUnion) (m : NeighMessage) :
    neigh_result none i f g m = none := by
  unfold neigh_result
  repeat' split <;> try rfl
  all_goals simp_all [ieee_oui]

theorem gateway_description_none_hwdb (i f : Int) (g : InAddrUnion)
    (reply : Except Int (List NeighMessage)) :
    (get_gateway_description none i f g reply).toOption = none := by
  cases reply with
  | error e => rfl
  | ok ms =>
    simp only [get_gateway_description]
    induction ms with
    | nil => rfl
    | cons m rest ih =>
      simp [neigh_scan, neigh_result_none_hwdb, ih]

theorem dump_rows_prop {ρ : Type} (f : LocalAddress → Except Int ρ)
    (P : ρ → Prop) (hf : ∀ a r, f a = .ok r → P r) :
    ∀ l : List LocalAddress, ∀ r ∈ (dump_rows f l).1, P r := by
  intro l
  induction l with
  | nil => intro r hr; cases hr
  | cons a rest ih =>
    intro r hr
    cases hfa : f a with
    | error e => simp [dump_rows, hfa] at hr
    | ok row =>
      simp only [dump_rows, hfa] at hr
      rcases List.mem_cons.mp hr with rfl | hr2
      · exact hf a r hfa
      · exact ih r hr2

theorem dump_gateways_none_desc (env : StatusEnv) (ifindex : Int) :
    ∀ pr ∈ (dump_gateways env none ifindex).1, pr.2 = none := by
  cases hg : env.local_gateways ifindex with
  | error n =>
    intro pr hpr
    simp [dump_gateways, hg] at hpr
  | ok list =>
    intro pr hpr
    simp only [dump_gateways, hg] at hpr
    refine dump_rows_prop _ (fun q : String × Option String => q.2 = none) ?_ list pr hpr
    intro a r hr
    cases hs : env.addr_to_string a.family a.address with
    | error e => simp [hs] at hr
    | ok gw =>
      simp only [hs, Except.ok.injEq] at hr
      rw [← hr]
      exact gateway_description_none_hwdb _ _ _ _

theorem link_status_one_none_desc (env : StatusEnv) (name : String)
    (r : LinkReport) (h : link_status_one env none name = .ok r) :
    report_oui_descriptions r = [] := by
  unfold link_status_one at h
  cases hq : env.query_link name with
  | error e => simp [hq] at h
  | ok msg =>
    simp only [hq] at h
    cases hidx : msg.ifindex with
    | error e => simp [hidx] at h
    | ok ifindex =>
      cases hnm : msg.ifname with
      | error e => simp [hidx, hnm] at h
      | ok nm =>
        cases hity : msg.iftype with
        | error e => simp [hidx, hnm, hity] at h
        | ok ty =>
          simp only [hidx, hnm, hity, Except.ok.injEq] at h
          have hdesc : r.hwdesc = none := by
            rw [← h]
            cases hm : msg.mac with
            | error e => simp [hm]
            | ok mbytes =>
              by_cases hz : mbytes.all (· = 0)
              · simp [hm, hz]
              · simp [hm, hz, ieee_oui, Except.toOption]
          have hgw : r.gateways.filterMap Prod.snd = [] := by
            rw [List.filterMap_eq_nil]
            intro pr hpr
            have : pr.2 = none := by
              refine dump_gateways_none_desc env ifindex pr ?_
              have hrg : r.gateways = (dump_gateways env none ifindex).1 := by
                rw [← h]
              rw [← hrg]
              exact hpr
            simpa using this
          simp [report_oui_descriptions, hdesc, hgw]

theorem link_reports_desc_nil {α : Type} (env : StatusEnv) (g : α → String)
    (l : List α) :
    output_oui_descriptions
      (.links (l.map (fun a => link_status_one env none (g a)))) = [] := by
  induction l with
  | nil => rfl
  | cons a rest ih =>
    cases hx : link_status_one env none (g a) with
    | error e =>
      simpa [output_oui_descriptions, hx] using ih
    | ok r =>
      have hr := link_status_one_none_desc env (g a) r hx
      simpa [output_oui_descriptions, hx, hr] using ih

/-- Claim C9: a failure to open the netlink transport makes the whole
status invocation fail with that error, while a failure to open the
hardware database is non-fatal: the invocation still produces its output
(unconditionally so outside --all mode, whose link enumeration has its
own transport failures), and every vendor annotation in whatever output
is produced is absent. -/
theorem link_status_failure_policy (env : StatusEnv) (names : List String)
    (all : Bool) :
    (∀ e, env.netlink_open = .error e → link_status names all env = .error e) ∧
    (env.netlink_open = .ok () → ∀ eh, env.hwdb_open = .error eh →
      ((all = false → ∃ out, link_status names all env = .ok out) ∧
       (∀ out, link_status names all env = .ok out →
          output_oui_descriptions out = []))) := by
  constructor
  · intro e he
    simp [link_status, he]
  · intro hok eh heh
    have hnone : (match env.hwdb_open with
        | .ok h => some h
        | .error _ => (none : Option Hwdb)) = none := by rw [heh]
    constructor
    · intro hall
      subst hall
      by_cases hn : names = []
      · refine ⟨.system (system_status env none), ?_⟩
        simp only [link_status, hok, hnone]
        rw [if_pos ⟨hn, by simp⟩]
      · refine ⟨.links (names.map (fun n => link_status_one env none n)), ?_⟩
        simp only [link_status, hok, hnone]
        rw [if_neg (by simp [hn]), if_neg (by simp)]
    · intro out hout
      simp only [link_status, hok, hnone] at hout
      by_cases hcond : names = [] ∧ ¬ all = true
      · rw [if_pos hcond] at hout
        simp only [Except.ok.injEq] at hout
        rw [← hout]
        simp only [output_oui_descriptions, system_status]
        rw [List.filterMap_eq_nil]
        intro pr hpr
        exact dump_gateways_none_desc env 0 pr hpr
      · rw [if_neg hcond] at hout
        by_cases hall : all = true
        · rw [if_pos hall] at hout
          cases hd : env.link_dump with
          | error e => simp [hd] at hout
          | ok reply =>
            cases hdec : decode_and_sort_links reply with
            | error e => simp [hd, hdec] at hout
            | ok links =>
              simp only [hd, hdec, Except.ok.injEq] at hout
              rw [← hout]
              exact link_reports_desc_nil env (fun l : LinkInfo => l.name) links
        · rw [if_neg hall] at hout
          simp only [Except.ok.injEq] at hout
          rw [← hout]
          exact link_reports_desc_nil env (fun s : String => s) names

/-- A status environment whose hardware database fails to open. -/
def c9_env : StatusEnv :=
  { netlink_open := .ok (),
    hwdb_open := .error (-7),
    query_link := fun n =>
      if n = ("eth0") then
        .ok { ifindex := .ok 2, ifname := .ok ("eth0"), iftype := .ok 1,
              mac := .ok [170, 187, 204, 1, 2, 3], mtu := 1500 }
      else .error (-19),
    link_dump := .ok [],
    local_addresses := fun _ => .ok [],
    local_gateways := fun _ => .ok [{ family := AF_INET, ifindex := 2, address := c2_gw }],
    neigh_dump := fun _ _ => .ok [],
    addr_to_string := fun _ _ => .ok ("192.168.0.1"),
    op_state := fun _ => some ("routable"),
    setup_state := fun _ => some ("configured"),
    dns := fun _ => [],
    search_domains := fun _ => [],
    route_domains := fun _ => [],
    ntp := fun _ => [],
    carrier_bound_to := fun _ => [],
    carrier_bound_by := fun _ => [],
    timezone := fun _ => none,
    sys_op_state := none,
    sys_dns := [], sys_search_domains := [], sys_route_domains := [], sys_ntp := [] }

/-- The same environment with a failing netlink transport. -/
def c9_err_env : StatusEnv :=
  { c9_env with netlink_open := .error (-13) }

/-- The report produced for eth0 under c9_env: a resolvable hardware
address and one gateway, both without any vendor annotation. -/
def c9_out : StatusOutput :=
  .links [.ok
    { ifindex := 2, name := ("eth0"), iftype := 1,
      operational_state := some ("routable"),
      setup_state := some ("configured"),
      hwaddr := some [170, 187, 204, 1, 2, 3], hwdesc := none,
      mtu := some 1500, addresses := [],
      gateways := [(("192.168.0.1"), none)],
      dns := [], search_domains := [], route_domains := [], ntp := [],
      carrier_bound_to := [], carrier_bound_by := [], timezone := none }]

/-- Witness for claim C9: the netlink failure aborts the invocation with
its error, while the database failure leaves the invocation successful
with every vendor annotation absent. -/
theorem link_status_failure_policy_witness :
    link_status [("eth0")] false c9_err_env = .error (-13) ∧
    link_status [("eth0")] false c9_env = .ok c9_out ∧
    output_oui_descriptions c9_out = [] := by
  have h2 : link_status [("eth0")] false c9_env = .ok c9_out := rfl
  exact ⟨(link_status_failure_policy c9_err_env [("eth0")] false).1 (-13) rfl,
         h2,
         ((link_status_failure_policy c9_env [("eth0")] false).2 rfl (-7) rfl).2
           c9_out h2⟩
